import Mathlib

/-!
Shallow embedding of the `BatchingQueue` delivery queue of the tana-mcp
repository (source: the TypeScript class `BatchingQueue` in
`src/BEST-PRACTICES.md`, the only implementation of the queue in the
repository) together with theorems settling the spec claims about it.

Modelling conventions:
* machine integers are `Nat`/`Int` (JS numbers are used only for counts,
  times and sizes here, all integral);
* the opaque HTTP executor is a function argument (an oracle) since the
  source treats it as an injected, possibly failing function;
* `JSON.stringify(request).length` is abstracted as a size function
  argument `size : TanaAPIRequest → Nat`, since the claims hold for every
  serialization;
* the single-threaded `processQueue` loop is rendered as explicit
  recursive interpreters producing traces of observable events.
-/

namespace TanaMCP

/-- A node specification inside a `createNodes` request.  The queue treats
node specs as opaque beyond their count, so only an identifying payload is
kept. -/
structure NodeSpec where
  payload : String
  deriving DecidableEq, Repr

/-- One created-node result inside a response (`response.children` element);
opaque to the queue beyond being countable and concatenable. -/
structure TanaChild where
  nodeId : String
  deriving DecidableEq, Repr

/-- `TanaAPIRequest` from the source: either a `createNodes` request
(carrying a list of node specs) or a `setNodeName` request. -/
inductive TanaAPIRequest where
  | createNodes (targetNodeId : String) (nodes : List NodeSpec)
  | setNodeName (nodeId : String) (newName : String)
  deriving DecidableEq, Repr

/-- `TanaAPIResponse` from the source: a record whose `children` field is
optional (it may be absent on non-create responses). -/
structure TanaAPIResponse where
  children : Option (List TanaChild)
  deriving DecidableEq, Repr

/-- `BatchingOptions` from the source. -/
structure BatchingOptions where
  maxNodesPerRequest : Nat
  maxPayloadSize : Nat
  maxWorkspaceNodes : Nat
  rateLimit : Nat
  maxRetries : Nat
  baseBackoffMs : Nat
  deriving DecidableEq, Repr

/-- The constructor defaults from the source
(`maxNodesPerRequest: 100, maxPayloadSize: 5000, maxWorkspaceNodes: 750000,
rateLimit: 1, maxRetries: 3, baseBackoffMs: 1000`). -/
def defaultOptions : BatchingOptions :=
  ⟨100, 5000, 750000, 1, 3, 1000⟩

/-- `isCreateNodesRequest` from the source: the type guard testing for the
`nodes` field. -/
def isCreateNodesRequest : TanaAPIRequest → Bool
  | .createNodes _ _ => true
  | .setNodeName _ _ => false

/-- The node estimate computed at the top of `enqueue`:
`this.isCreateNodesRequest(request) ? request.nodes.length : 0`. -/
def estimatedNewNodes : TanaAPIRequest → Nat
  | .createNodes _ ns => ns.length
  | .setNodeName _ _ => 0

/-- `chunkNodes` from the source: left-to-right slices of length
`chunkSize` (`for (let i = 0; i < nodes.length; i += chunkSize)
chunks.push(nodes.slice(i, i + chunkSize))`).  With `chunkSize = 0` and a
nonempty list the source loop never terminates; that unreachable
configuration is rendered as `[]`, and every theorem touching it assumes
`0 < chunkSize`. -/
def chunkNodes (nodes : List α) (chunkSize : Nat) : List (List α) :=
  if h : nodes.length = 0 ∨ chunkSize = 0 then []
  else nodes.take chunkSize :: chunkNodes (nodes.drop chunkSize) chunkSize
termination_by nodes.length
decreasing_by
  push_neg at h
  obtain ⟨h1, h2⟩ := h
  simp [List.length_drop]
  omega

/-- `combineResponses` from the source: start from `{ children: [] }` and
concatenate each response's `children` when present. -/
def combineResponses (responses : List TanaAPIResponse) : TanaAPIResponse :=
  ⟨some (responses.foldl (fun acc r => acc ++ r.children.getD []) [])⟩

/-! ## Admission and quota tracking

`enqueue` performs two synchronous checks before an entry is created:
the workspace-limit check (`totalNodeCount + estimatedNewNodes >
maxWorkspaceNodes`) and the payload-size check
(`JSON.stringify(request).length > maxPayloadSize`), each `throw`ing before
any assignment.  `updateNodeCount` is run by the worker after a successful
dispatch; `setNodeCount`/`resetNodeCount` are the external seed paths. -/

/-- The two admission errors `enqueue` can throw synchronously. -/
inductive AdmitError where
  | workspaceLimit
  | payloadTooLarge
  deriving DecidableEq, Repr

/-- The projection of the `BatchingQueue` state that admission and quota
tracking touch: the pending FIFO list and the tracked workspace node count.
The count is an `Int` because `setNodeCount` accepts arbitrary integers. -/
structure QueueState where
  queue : List TanaAPIRequest
  totalNodeCount : Int
  deriving DecidableEq, Repr

/-- The state a fresh `BatchingQueue` starts in (`queue = []`,
`totalNodeCount = 0`). -/
def initialState : QueueState := ⟨[], 0⟩

/-- The admission path of `enqueue`: the two checks in source order, each
returning the untouched state together with the thrown error; on admission
the entry joins the FIFO tail.  (`size` abstracts
`JSON.stringify(request).length`.)  The source's diversion of an oversized
create into `handleLargeCreateRequest` happens after both checks and
re-enters this same path per chunk; it is modelled separately below. -/
def enqueueStep (opts : BatchingOptions) (size : TanaAPIRequest → Nat)
    (s : QueueState) (r : TanaAPIRequest) : QueueState × Option AdmitError :=
  if (s.totalNodeCount + estimatedNewNodes r : Int) > (opts.maxWorkspaceNodes : Int) then
    (s, some .workspaceLimit)
  else if size r > opts.maxPayloadSize then
    (s, some .payloadTooLarge)
  else
    ({ s with queue := s.queue ++ [r] }, none)

/-- `updateNodeCount` from the source: after a successful dispatch of a
create request, add the number of children the executor reported
(`response.children?.length || 0`); other requests leave the count alone. -/
def updateNodeCount (request : TanaAPIRequest) (response : TanaAPIResponse)
    (totalNodeCount : Int) : Int :=
  if isCreateNodesRequest request then
    totalNodeCount + ((response.children.getD []).length : Int)
  else
    totalNodeCount

/-- `setNodeCount` from the source: `this.totalNodeCount = Math.max(0, count)`. -/
def setNodeCount (count : Int) : Int := max 0 count

/-- The state-mutating events of the queue, as far as the pending list and
the node count are concerned: an `enqueue` call, a successful dispatch of
the front entry (the worker's `shift` + `updateNodeCount` + `resolve`), a
terminal rejection of the front entry (`shift` + exhausted retries +
`reject`; the count is untouched), an external `setNodeCount` seed, and
`resetNodeCount`.  A retried dispatch leaves this projection unchanged
(the entry is `unshift`ed back to the front). -/
inductive QuotaOp where
  | enqueueReq (r : TanaAPIRequest)
  | commitHead (resp : TanaAPIResponse)
  | rejectHead
  | seed (c : Int)
  | reset
  deriving DecidableEq, Repr

/-- One step of the quota-relevant state machine. -/
def applyQuotaOp (opts : BatchingOptions) (size : TanaAPIRequest → Nat)
    (s : QueueState) : QuotaOp → QueueState
  | .enqueueReq r => (enqueueStep opts size s r).1
  | .commitHead resp =>
    match s.queue with
    | [] => s
    | r :: rest => ⟨rest, updateNodeCount r resp s.totalNodeCount⟩
  | .rejectHead =>
    match s.queue with
    | [] => s
    | _ :: rest => ⟨rest, s.totalNodeCount⟩
  | .seed c => ⟨s.queue, setNodeCount c⟩
  | .reset => ⟨s.queue, 0⟩

/-- Folding a sequence of quota-relevant events over a starting state. -/
def applyQuotaOps (opts : BatchingOptions) (size : TanaAPIRequest → Nat)
    (s : QueueState) (ops : List QuotaOp) : QueueState :=
  ops.foldl (applyQuotaOp opts size) s

/-- `allDenied s rs` holds when feeding the requests `rs` one after the
other through `enqueueStep` has every single one denied. -/
def allDenied (opts : BatchingOptions) (size : TanaAPIRequest → Nat) :
    QueueState → List TanaAPIRequest → Bool
  | _, [] => true
  | s, r :: rs =>
    (enqueueStep opts size s r).2.isSome &&
      allDenied opts size (enqueueStep opts size s r).1 rs

/-- Feeding a sequence of requests through the admission path, keeping only
the resulting state. -/
def enqueueMany (opts : BatchingOptions) (size : TanaAPIRequest → Nat)
    (s : QueueState) (rs : List TanaAPIRequest) : QueueState :=
  rs.foldl (fun s r => (enqueueStep opts size s r).1) s

/-! ## The retry controller and the worker loop

`processQueue` shifts the front entry, dispatches it through
`executeRequest`, and on error calls `handleRequestError`, which increments
the entry's `retryCount`, and while it stays `≤ maxRetries`, sleeps
`baseBackoffMs * 2^(retryCount-1)` and `unshift`s the same entry back to
the front (so it is the very next entry dispatched); otherwise it rejects
the entry's promise with the terminal "failed after N retries" error. -/

/-- `QueuedRequest` from the source; the `resolve`/`reject` callbacks are
modelled by outcome events keyed by `id`. -/
structure QueuedRequest where
  id : Nat
  request : TanaAPIRequest
  timestamp : Nat
  retryCount : Nat
  deriving DecidableEq, Repr

/-- The backoff sleep computed by `handleRequestError` after the increment:
`baseBackoffMs * Math.pow(2, retryCount - 1)`. -/
def backoffTime (opts : BatchingOptions) (retryCount : Nat) : Nat :=
  opts.baseBackoffMs * 2 ^ (retryCount - 1)

/-- What `handleRequestError` decides for a failed entry. -/
inductive ErrorAction where
  | requeue (updated : QueuedRequest) (backoffMs : Nat)
  | reject (message : String)
  deriving DecidableEq, Repr

/-- `handleRequestError` from the source.  Note that the error argument is
inspected in no way other than being embedded in the terminal message:
the source has no retryable/non-retryable classification. -/
def handleRequestError (opts : BatchingOptions) (q : QueuedRequest)
    (errMsg : String) : ErrorAction :=
  if q.retryCount + 1 ≤ opts.maxRetries then
    .requeue { q with retryCount := q.retryCount + 1 }
      (backoffTime opts (q.retryCount + 1))
  else
    .reject ("Request failed after " ++ toString opts.maxRetries
      ++ " retries: " ++ errMsg)

/-- Terminal outcome of one queue entry: its promise is resolved with a
response or rejected with an error message, exactly once. -/
inductive Outcome where
  | success (response : TanaAPIResponse)
  | failure (message : String)
  deriving DecidableEq, Repr

/-- The `processQueue` loop restricted to the front entry: dispatch, and on
failure run `handleRequestError`; a re-queued entry is `unshift`ed to the
front and is therefore the very next entry dispatched, so the front entry
settles before anything behind it is touched.  `exec n` is the executor's
verdict on the entry's `n`-th dispatch attempt; `attempts` counts the
attempts already made.  Returns the total number of dispatch attempts and
the settled outcome. -/
def settleEntry (opts : BatchingOptions)
    (exec : Nat → Except String TanaAPIResponse) (q : QueuedRequest)
    (attempts : Nat) : Nat × Outcome :=
  match exec attempts with
  | .ok r => (attempts + 1, .success r)
  | .error msg =>
    match h : handleRequestError opts q msg with
    | .requeue q' _ => settleEntry opts exec q' (attempts + 1)
    | .reject m => (attempts + 1, .failure m)
termination_by opts.maxRetries + 1 - q.retryCount
decreasing_by
  unfold handleRequestError at h
  split at h
  · rename_i hle
    injection h with hq hb
    subst hq
    simp only []
    omega
  · exact absurd h (by simp)

/-- The worker loop over the whole pending list: settle the front entry
completely (retries `unshift` it to the front, so nothing overtakes it),
emit its outcome event, move on.  `exec i n` is the executor's verdict on
the `n`-th dispatch attempt of the entry with id `i`. -/
def processAll (opts : BatchingOptions)
    (exec : Nat → Nat → Except String TanaAPIResponse) :
    List QueuedRequest → List (Nat × Outcome)
  | [] => []
  | q :: rest =>
    (q.id, (settleEntry opts (exec q.id) q 0).2) :: processAll opts exec rest

/-! ## Splitting oversized creates

`handleLargeCreateRequest` chunks the node list, then, for each chunk in
order, `await this.enqueue(chunkRequest)`: each sub-request is a fresh
queue entry with its own promise.  The `await` means a rejected
sub-request makes `handleLargeCreateRequest` itself reject with that very
error at once, abandoning the remaining chunks and discarding the
responses already collected in `allResponses`; only when every chunk
resolves are the responses combined by `combineResponses`. -/

/-- The sequential `for (const chunk of chunks) { ... await ... }` loop of
`handleLargeCreateRequest`: `outcome i` is the settled result of the
`i`-th sub-request's promise (the executor and retry machinery are behind
it).  Collects all responses in order, or rejects with the first
sub-request rejection. -/
def runChunks (outcome : Nat → Except String TanaAPIResponse) :
    Nat → List (List NodeSpec) → Except String (List TanaAPIResponse)
  | _, [] => .ok []
  | i, _ :: rest =>
    match outcome i with
    | .error e => .error e
    | .ok r => (runChunks outcome (i + 1) rest).map (r :: ·)

/-- `handleLargeCreateRequest` from the source, with the settled result of
each sub-request abstracted as `outcome`. -/
def handleLargeCreateRequest (opts : BatchingOptions)
    (outcome : Nat → Except String TanaAPIResponse)
    (nodes : List NodeSpec) : Except String TanaAPIResponse :=
  (runChunks outcome 0 (chunkNodes nodes opts.maxNodesPerRequest)).map
    combineResponses

/-! ## Interleaving of split sub-requests with other arrivals

In the source, `handleLargeCreateRequest` enqueues chunk `i+1` only after
chunk `i`'s promise resolves, and a request `enqueue`d by another caller
in the meantime `push`es behind whatever is pending.  The interpreter
below replays the resulting dispatch order of the single-threaded worker
in an all-success execution: each dispatched entry is emitted to the
trace; when a dispatched entry is a chunk of a split whose coordinator
still has chunks to enqueue, the next chunk is appended at the back of
the pending list. -/

/-- A queue entry / trace label: the whole of logical request `rid`, or
chunk `idx` of split logical request `rid`. -/
inductive EntryLabel where
  | whole (rid : Nat)
  | chunk (rid : Nat) (idx : Nat)
  deriving DecidableEq, Repr

/-- Find the split coordinator for `rid` among `(rid, chunks still to
enqueue)` pairs; when it has chunks left, return the decremented
coordinator list. -/
def takeChunk : List (Nat × Nat) → Nat → Option (List (Nat × Nat))
  | [], _ => none
  | (p, n) :: rest, rid =>
    if p = rid then
      if n = 0 then none else some ((p, n - 1) :: rest)
    else
      (takeChunk rest rid).map ((p, n) :: ·)

/-- The worker's dispatch order in an all-success execution with pending
list `queue` and split coordinators `coords`. -/
def runWithSplits : List (Nat × Nat) → List EntryLabel → List EntryLabel
  | _, [] => []
  | coords, .whole rid :: rest => .whole rid :: runWithSplits coords rest
  | coords, .chunk rid idx :: rest =>
    match h : takeChunk coords rid with
    | none => .chunk rid idx :: runWithSplits coords rest
    | some coords' =>
      .chunk rid idx ::
        runWithSplits coords' (rest ++ [.chunk rid (idx + 1)])
termination_by coords queue => (coords.map Prod.snd).sum + queue.length
decreasing_by
  all_goals try simp only [List.length_append, List.length_cons, List.length_nil]
  · omega
  · omega
  · have key : ∀ (cs : List (Nat × Nat)) (r : Nat) (cs' : List (Nat × Nat)),
        takeChunk cs r = some cs' →
        (cs'.map Prod.snd).sum + 1 = (cs.map Prod.snd).sum := by
      intro cs
      induction cs with
      | nil => intro r cs' hc; simp [takeChunk] at hc
      | cons c rest ih =>
        intro r cs' hc
        obtain ⟨p, n⟩ := c
        simp only [takeChunk] at hc
        split at hc
        · split at hc
          · simp at hc
          · injection hc with hc'
            subst hc'
            simp only [List.map_cons, List.sum_cons]
            omega
        · cases htc : takeChunk rest r with
          | none => rw [htc] at hc; simp at hc
          | some rest' =>
            rw [htc] at hc
            simp only [Option.map_some'] at hc
            injection hc with hc'
            subst hc'
            have := ih r rest' htc
            simp only [List.map_cons, List.sum_cons]
            omega
    have := key coords rid coords' h
    omega

/-- `allBefore trace a b`: every dispatch belonging to logical request `a`
occurs in the trace strictly before every dispatch belonging to `b`. -/
def ofRequest (rid : Nat) : EntryLabel → Bool
  | .whole r => r == rid
  | .chunk r _ => r == rid

/-- Formalization of "no dispatch of `b` is issued before every dispatch of
`a` has been issued". -/
def allBefore (trace : List EntryLabel) (a b : Nat) : Prop :=
  ∀ i j : Fin trace.length,
    ofRequest a (trace.get i) → ofRequest b (trace.get j) → (i : Nat) < (j : Nat)

instance (trace : List EntryLabel) (a b : Nat) : Decidable (allBefore trace a b) := by
  unfold allBefore
  infer_instance

/-! ## Rate pacing with explicit time

At the top of each `processQueue` iteration the worker computes
`timeSinceLastRequest = now - lastRequestTime` and sleeps
`minInterval - timeSinceLastRequest` when the difference is below
`minInterval = 1000 / rateLimit`, then `shift`s and dispatches the front
entry.  `this.lastRequestTime = Date.now()` is assigned only on the
success path; `handleRequestError` sleeps the backoff but never touches
`lastRequestTime`, so failed attempts leave the pacing clock where the
last *success* left it. -/

/-- `minInterval` from `processQueue`: `1000 / this.options.rateLimit`
milliseconds between requests. -/
def minInterval (opts : BatchingOptions) : Nat := 1000 / opts.rateLimit

/-- The moment the front entry is handed to the executor when the loop
iteration starts at `now` with pacing clock `lrt`: after the rate-limit
sleep, if one is needed. -/
def dispatchStart (opts : BatchingOptions) (now lrt : Nat) : Nat :=
  now + (if now - lrt < minInterval opts then minInterval opts - (now - lrt) else 0)

/-- One dispatch attempt recorded by the timed interpreter: when the entry
was handed to the executor, the pacing-clock (`lastRequestTime`) value the
rate check used, when the executor settled, and its verdict. -/
structure DispatchEvent where
  start : Nat
  clockAtStart : Nat
  finish : Nat
  success : Bool
  deriving DecidableEq, Repr

/-- The `processQueue` loop with explicit time: state is the pending list,
the current time `now`, the pacing clock `lrt` (`lastRequestTime`) and the
global attempt counter `k`.  `exec k` yields the duration and verdict of
the `k`-th dispatch attempt.  Emits one `DispatchEvent` per attempt. -/
def runTimed (opts : BatchingOptions)
    (exec : Nat → Nat × Except String TanaAPIResponse) :
    List QueuedRequest → Nat → Nat → Nat → List DispatchEvent
  | [], _, _, _ => []
  | q :: rest, now, lrt, k =>
    match (exec k).2 with
    | .ok _ =>
      ⟨dispatchStart opts now lrt, lrt, dispatchStart opts now lrt + (exec k).1, true⟩ ::
        runTimed opts exec rest (dispatchStart opts now lrt + (exec k).1)
          (dispatchStart opts now lrt + (exec k).1) (k + 1)
    | .error msg =>
      match h : handleRequestError opts q msg with
      | .requeue q' backoff =>
        ⟨dispatchStart opts now lrt, lrt, dispatchStart opts now lrt + (exec k).1, false⟩ ::
          runTimed opts exec (q' :: rest)
            (dispatchStart opts now lrt + (exec k).1 + backoff) lrt (k + 1)
      | .reject _ =>
        ⟨dispatchStart opts now lrt, lrt, dispatchStart opts now lrt + (exec k).1, false⟩ ::
          runTimed opts exec rest (dispatchStart opts now lrt + (exec k).1) lrt (k + 1)
termination_by queue _ _ _ =>
  (queue.map fun q => opts.maxRetries + 1 - q.retryCount).sum + queue.length
decreasing_by
  · simp only [List.map_cons, List.sum_cons, List.length_cons]
    omega
  · have key : q' = { q with retryCount := q.retryCount + 1 } ∧
        q.retryCount + 1 ≤ opts.maxRetries := by
      unfold handleRequestError at h
      split at h
      · rename_i hle
        injection h with hq hb
        exact ⟨hq.symm, hle⟩
      · exact absurd h (by simp)
    obtain ⟨hq', hle⟩ := key
    subst hq'
    simp only [List.map_cons, List.sum_cons, List.length_cons]
    omega
  · simp only [List.map_cons, List.sum_cons, List.length_cons]
    omega

/-! ## Concrete instances used by witnesses and counterexamples -/

/-- Options with a small workspace ceiling (10 nodes). -/
def opts10 : BatchingOptions := ⟨100, 5000, 10, 1, 3, 1000⟩

/-- Options with `maxRetries = 1`. -/
def opts1 : BatchingOptions := ⟨100, 5000, 750000, 1, 1, 1000⟩

/-- Options with a 1 ms base backoff (rate limit 1/s, `maxRetries = 3`). -/
def opts3 : BatchingOptions := ⟨100, 5000, 750000, 1, 3, 1⟩

/-- Options with `maxNodesPerRequest = 1`. -/
def splitOpts : BatchingOptions := ⟨1, 5000, 750000, 1, 3, 1000⟩

/-- A trivial payload-size function. -/
def size0 : TanaAPIRequest → Nat := fun _ => 0

/-- A five-node create request. -/
def create5 : TanaAPIRequest :=
  .createNodes "target" (List.replicate 5 ⟨"n"⟩)

/-- 250 node specifications. -/
def nodes250 : List NodeSpec := List.replicate 250 ⟨"n"⟩

/-- A pending entry fresh from `enqueue` (`retryCount = 0`). -/
def entry3 : QueuedRequest := ⟨1, .setNodeName "node" "name", 0, 0⟩

/-- A fresh create entry whose payload the remote would permanently
reject. -/
def permEntry : QueuedRequest := ⟨1, .createNodes "target" [⟨"bad"⟩], 0, 0⟩

/-- An executor verdict oracle that fails every attempt transiently. -/
def failExec : Nat → Except String TanaAPIResponse :=
  fun _ => .error "transient network error"

/-- A timed executor oracle: instantaneous attempts, the first three fail,
the fourth succeeds. -/
def exec3 : Nat → Nat × Except String TanaAPIResponse :=
  fun k => (0, if k < 3 then .error "network timeout" else .ok ⟨some []⟩)

/-- A timed executor oracle that always succeeds instantly. -/
def execOk : Nat → Nat × Except String TanaAPIResponse :=
  fun _ => (0, .ok ⟨some []⟩)

/-- Sub-request outcomes: the first chunk resolves with one created child,
every later chunk rejects. -/
def chunkOutcome2 : Nat → Except String TanaAPIResponse :=
  fun i => if i = 0 then .ok ⟨some [⟨"created0"⟩]⟩ else .error "Server error"

/-- Sub-request outcomes: chunk 1 (the second of three) rejects, the
others resolve. -/
def chunkOutcome3 : Nat → Except String TanaAPIResponse :=
  fun i => if i = 1 then .error "Server error on chunk 1" else .ok ⟨some [⟨"c"⟩]⟩

/-! ## Properties -/

theorem chunkNodes_nil (k : Nat) : chunkNodes ([] : List α) k = [] := by
  simp [chunkNodes]

/-- Every chunk produced by `chunkNodes` has length at most the chunk size. -/
theorem chunkNodes_length_le {k : Nat} (nodes : List α) :
    ∀ c ∈ chunkNodes nodes k, c.length ≤ k := by
  induction nodes, k using chunkNodes.induct with
  | case1 nodes k h =>
    rw [chunkNodes, dif_pos h]
    simp
  | case2 nodes k h ih =>
    rw [chunkNodes, dif_neg h]
    intro c hc
    rcases List.mem_cons.mp hc with rfl | hc'
    · exact List.length_take_le _ _
    · exact ih c hc'

/-- Every chunk except possibly the last has length exactly the chunk size
(left-to-right slicing only shortens the final slice). -/
theorem chunkNodes_dropLast {k : Nat} (nodes : List α) :
    ∀ c ∈ (chunkNodes nodes k).dropLast, c.length = k := by
  induction nodes, k using chunkNodes.induct with
  | case1 nodes k h =>
    rw [chunkNodes, dif_pos h]
    simp
  | case2 nodes k h ih =>
    rw [chunkNodes, dif_neg h]
    push_neg at h
    obtain ⟨h1, h2⟩ := h
    intro c hc
    by_cases hrest : chunkNodes (nodes.drop k) k = []
    · simp [hrest] at hc
    · rw [List.dropLast_cons_of_ne_nil hrest] at hc
      rcases List.mem_cons.mp hc with rfl | hc'
      · rcases Nat.lt_or_ge k nodes.length with hlt | hge
        · simp [List.length_take]
          omega
        · exfalso
          apply hrest
          rw [List.drop_eq_nil_of_le hge, chunkNodes_nil]
      · exact ih c hc'

/-- Concatenating the chunks in order restores the original node list. -/
theorem chunkNodes_flatten {k : Nat} (nodes : List α) (hk : 0 < k) :
    (chunkNodes nodes k).flatten = nodes := by
  induction nodes, k using chunkNodes.induct with
  | case1 nodes k h =>
    rw [chunkNodes, dif_pos h]
    rcases h with h | h
    · simp [List.length_eq_zero.mp h]
    · omega
  | case2 nodes k h ih =>
    rw [chunkNodes, dif_neg h, List.flatten_cons, ih hk, List.take_append_drop]

theorem combineResponses_foldl (rs : List TanaAPIResponse) (acc : List TanaChild) :
    rs.foldl (fun acc r => acc ++ r.children.getD []) acc =
      acc ++ (rs.map (fun r => r.children.getD [])).flatten := by
  induction rs generalizing acc with
  | nil => simp
  | cons r rs ih => simp [List.foldl_cons, ih, List.append_assoc]

/-- Combining per-chunk responses whose children are the per-node results of
the chunk yields the per-node results of the concatenation of the chunks. -/
theorem combineResponses_map (css : List (List NodeSpec)) (f : NodeSpec → TanaChild) :
    combineResponses (css.map fun c => ⟨some (c.map f)⟩) =
      ⟨some (css.flatten.map f)⟩ := by
  unfold combineResponses
  rw [combineResponses_foldl]
  simp [List.map_map, Function.comp_def, List.map_flatten]

theorem enqueueStep_denied {opts : BatchingOptions} {size : TanaAPIRequest → Nat}
    {s : QueueState} {r : TanaAPIRequest} {e : AdmitError}
    (h : (enqueueStep opts size s r).2 = some e) :
    (enqueueStep opts size s r).1 = s := by
  by_cases h1 : (s.totalNodeCount + estimatedNewNodes r : Int) > (opts.maxWorkspaceNodes : Int)
  · simp [enqueueStep, h1]
  · by_cases h2 : size r > opts.maxPayloadSize
    · simp [enqueueStep, h1, h2]
    · simp [enqueueStep, h1, h2] at h

theorem applyQuotaOp_nonneg (opts : BatchingOptions) (size : TanaAPIRequest → Nat)
    (s : QueueState) (op : QuotaOp) (h : 0 ≤ s.totalNodeCount) :
    0 ≤ (applyQuotaOp opts size s op).totalNodeCount := by
  obtain ⟨qs, cnt⟩ := s
  cases op with
  | enqueueReq r =>
    simp only [applyQuotaOp, enqueueStep]
    split
    · exact h
    · split
      · exact h
      · exact h
  | commitHead resp =>
    cases qs with
    | nil => exact h
    | cons r rest =>
      simp only [applyQuotaOp, updateNodeCount]
      split
      · show (0 : Int) ≤ cnt + ((resp.children.getD []).length : Int)
        have h' : (0 : Int) ≤ cnt := h
        omega
      · exact h
  | rejectHead =>
    cases qs with
    | nil => exact h
    | cons r rest => exact h
  | seed c => exact le_max_left 0 c
  | reset => exact le_refl 0

theorem handleRequestError_requeue_inv {opts : BatchingOptions}
    {q : QueuedRequest} {errMsg : String} {q' : QueuedRequest} {b : Nat}
    (h : handleRequestError opts q errMsg = .requeue q' b) :
    q' = { q with retryCount := q.retryCount + 1 } ∧
      q.retryCount + 1 ≤ opts.maxRetries := by
  unfold handleRequestError at h
  split at h
  · injection h with h1 h2
    exact ⟨h1.symm, by assumption⟩
  · exact absurd h (by simp)

theorem handleRequestError_reject_inv {opts : BatchingOptions}
    {q : QueuedRequest} {errMsg : String} {m : String}
    (h : handleRequestError opts q errMsg = .reject m) :
    opts.maxRetries < q.retryCount + 1 := by
  unfold handleRequestError at h
  split at h
  · exact absurd h (by simp)
  · omega

theorem settleEntry_ok {opts : BatchingOptions}
    {exec : Nat → Except String TanaAPIResponse} {q : QueuedRequest} {n : Nat}
    {r : TanaAPIResponse} (hok : exec n = Except.ok r) :
    settleEntry opts exec q n = (n + 1, Outcome.success r) := by
  rw [settleEntry, hok]

theorem settleEntry_requeue {opts : BatchingOptions}
    {exec : Nat → Except String TanaAPIResponse} {q : QueuedRequest} {n : Nat}
    {msg : String} {q' : QueuedRequest} {b : Nat}
    (herr : exec n = Except.error msg)
    (hreq : handleRequestError opts q msg = .requeue q' b) :
    settleEntry opts exec q n = settleEntry opts exec q' (n + 1) := by
  rw [settleEntry, herr]
  split
  · rename_i heq
    exact absurd heq (by simp)
  · rename_i m2 heq
    injection heq with hm
    subst hm
    split
    · rename_i q2 b2 heq2
      rw [hreq] at heq2
      injection heq2 with h1 h2
      rw [h1]
    · rename_i m3 heq2
      rw [hreq] at heq2
      exact absurd heq2 (by simp)

theorem settleEntry_rejected {opts : BatchingOptions}
    {exec : Nat → Except String TanaAPIResponse} {q : QueuedRequest} {n : Nat}
    {msg : String} {m : String}
    (herr : exec n = Except.error msg)
    (hrej : handleRequestError opts q msg = .reject m) :
    settleEntry opts exec q n = (n + 1, Outcome.failure m) := by
  rw [settleEntry, herr]
  split
  · rename_i heq
    exact absurd heq (by simp)
  · rename_i m2 heq
    injection heq with hm
    subst hm
    split
    · rename_i q2 b2 heq2
      rw [hrej] at heq2
      exact absurd heq2 (by simp)
    · rename_i m3 heq2
      rw [hrej] at heq2
      injection heq2 with h1
      rw [h1]

/-- An entry whose `retryCount` is within budget settles after at most
`maxRetries + 1 - retryCount` further dispatch attempts. -/
theorem settleEntry_attempts_le (opts : BatchingOptions)
    (exec : Nat → Except String TanaAPIResponse) (q : QueuedRequest) (n : Nat)
    (hrc : q.retryCount ≤ opts.maxRetries) :
    (settleEntry opts exec q n).1 ≤ n + (opts.maxRetries + 1 - q.retryCount) := by
  induction q, n using settleEntry.induct opts exec with
  | case1 q n r hok =>
    rw [settleEntry_ok hok]
    omega
  | case2 q n msg herr q' b hreq ih =>
    obtain ⟨hq', hle⟩ := handleRequestError_requeue_inv hreq
    rw [settleEntry_requeue herr hreq]
    have hih := ih (by rw [hq']; exact hle)
    have hrc' : q'.retryCount = q.retryCount + 1 := by rw [hq']
    omega
  | case3 q n msg herr m hrej =>
    rw [settleEntry_rejected herr hrej]
    omega

/-- Against an executor that fails every attempt, an in-budget entry makes
exactly `maxRetries + 1 - retryCount` further attempts and its promise is
rejected with a terminal failure. -/
theorem settleEntry_exhausts (opts : BatchingOptions)
    (exec : Nat → Except String TanaAPIResponse) (q : QueuedRequest) (n : Nat)
    (hrc : q.retryCount ≤ opts.maxRetries)
    (hfail : ∀ m r, exec m ≠ Except.ok r) :
    (settleEntry opts exec q n).1 = n + (opts.maxRetries + 1 - q.retryCount) ∧
    ∃ m, (settleEntry opts exec q n).2 = Outcome.failure m := by
  induction q, n using settleEntry.induct opts exec with
  | case1 q n r hok =>
    exact absurd hok (hfail n r)
  | case2 q n msg herr q' b hreq ih =>
    obtain ⟨hq', hle⟩ := handleRequestError_requeue_inv hreq
    rw [settleEntry_requeue herr hreq]
    have hih := ih (by rw [hq']; exact hle)
    have hrc' : q'.retryCount = q.retryCount + 1 := by rw [hq']
    obtain ⟨h1, h2⟩ := hih
    exact ⟨by omega, h2⟩
  | case3 q n msg herr m hrej =>
    have hlt := handleRequestError_reject_inv hrej
    rw [settleEntry_rejected herr hrej]
    exact ⟨by omega, m, rfl⟩

/-- If the `i`-th sub-request rejects and every earlier one resolved, the
chunk loop rejects with exactly the `i`-th rejection. -/
theorem runChunks_first_error (outcome : Nat → Except String TanaAPIResponse)
    (cs : List (List NodeSpec)) (k i : Nat) (e : String)
    (hfail : outcome (k + i) = .error e)
    (hok : ∀ j, j < i → ∃ r, outcome (k + j) = .ok r)
    (hi : i < cs.length) :
    runChunks outcome k cs = .error e := by
  induction cs generalizing k i with
  | nil => simp at hi
  | cons c rest ih =>
    cases i with
    | zero =>
      simp only [Nat.add_zero] at hfail
      simp [runChunks, hfail]
    | succ i' =>
      obtain ⟨r, hr⟩ := hok 0 (Nat.succ_pos _)
      simp only [Nat.add_zero] at hr
      simp only [runChunks, hr]
      have hfail' : outcome (k + 1 + i') = Except.error e := by
        rw [show k + 1 + i' = k + (i' + 1) from by omega]
        exact hfail
      have hok' : ∀ j, j < i' → ∃ r, outcome (k + 1 + j) = Except.ok r := by
        intro j hj
        obtain ⟨r', hr'⟩ := hok (j + 1) (by omega)
        exact ⟨r', by rw [show k + 1 + j = k + (j + 1) from by omega]; exact hr'⟩
      have hi' : i' < rest.length := by simpa using hi
      rw [ih (k + 1) i' hfail' hok' hi']
      rfl

theorem runWithSplits_nil (coords : List (Nat × Nat)) :
    runWithSplits coords [] = [] := by
  rw [runWithSplits]

theorem runWithSplits_whole (coords : List (Nat × Nat)) (rid : Nat)
    (rest : List EntryLabel) :
    runWithSplits coords (.whole rid :: rest) =
      .whole rid :: runWithSplits coords rest := by
  rw [runWithSplits]

theorem runWithSplits_chunk_none (coords : List (Nat × Nat)) (rid idx : Nat)
    (rest : List EntryLabel) (h : takeChunk coords rid = none) :
    runWithSplits coords (.chunk rid idx :: rest) =
      .chunk rid idx :: runWithSplits coords rest := by
  rw [runWithSplits]
  split
  · rfl
  · rename_i coords' heq
    rw [h] at heq
    exact absurd heq (by simp)

theorem runWithSplits_chunk_some (coords : List (Nat × Nat)) (rid idx : Nat)
    (rest : List EntryLabel) (coords' : List (Nat × Nat))
    (h : takeChunk coords rid = some coords') :
    runWithSplits coords (.chunk rid idx :: rest) =
      .chunk rid idx ::
        runWithSplits coords' (rest ++ [.chunk rid (idx + 1)]) := by
  rw [runWithSplits]
  split
  · rename_i heq
    rw [h] at heq
    exact absurd heq (by simp)
  · rename_i coords2 heq
    rw [h] at heq
    injection heq with heq'
    rw [heq']

/-- The dispatch trace always begins with the entries already in the
pending list, in FIFO order: coordinator-enqueued chunks are appended
behind everything pending, so they never overtake an existing entry. -/
theorem runWithSplits_extends (coords : List (Nat × Nat))
    (queue : List EntryLabel) :
    ∃ t, runWithSplits coords queue = queue ++ t := by
  induction coords, queue using runWithSplits.induct with
  | case1 coords => exact ⟨[], by rw [runWithSplits_nil]; rfl⟩
  | case2 coords rid rest ih =>
    obtain ⟨t, ht⟩ := ih
    exact ⟨t, by rw [runWithSplits_whole, ht]; rfl⟩
  | case3 coords rid idx rest h ih =>
    obtain ⟨t, ht⟩ := ih
    exact ⟨t, by rw [runWithSplits_chunk_none coords rid idx rest h, ht]; rfl⟩
  | case4 coords rid idx rest coords' h ih =>
    obtain ⟨t, ht⟩ := ih
    refine ⟨EntryLabel.chunk rid (idx + 1) :: t, ?_⟩
    rw [runWithSplits_chunk_some coords rid idx rest coords' h, ht]
    simp

/-- With no split coordinator pending, the dispatch order is exactly the
FIFO order of the pending list. -/
theorem runWithSplits_no_coords (queue : List EntryLabel) :
    runWithSplits [] queue = queue := by
  induction queue with
  | nil => rw [runWithSplits_nil]
  | cons l rest ih =>
    cases l with
    | whole rid => rw [runWithSplits_whole, ih]
    | chunk rid idx => rw [runWithSplits_chunk_none [] rid idx rest rfl, ih]

theorem runTimed_nil (opts : BatchingOptions)
    (exec : Nat → Nat × Except String TanaAPIResponse) (now lrt k : Nat) :
    runTimed opts exec [] now lrt k = [] := by
  rw [runTimed]

theorem runTimed_ok (opts : BatchingOptions)
    (exec : Nat → Nat × Except String TanaAPIResponse) (q : QueuedRequest)
    (rest : List QueuedRequest) (now lrt k : Nat) (r : TanaAPIResponse)
    (hok : (exec k).2 = Except.ok r) :
    runTimed opts exec (q :: rest) now lrt k =
      ⟨dispatchStart opts now lrt, lrt, dispatchStart opts now lrt + (exec k).1, true⟩ ::
        runTimed opts exec rest (dispatchStart opts now lrt + (exec k).1)
          (dispatchStart opts now lrt + (exec k).1) (k + 1) := by
  rw [runTimed, hok]

theorem runTimed_requeue (opts : BatchingOptions)
    (exec : Nat → Nat × Except String TanaAPIResponse) (q : QueuedRequest)
    (rest : List QueuedRequest) (now lrt k : Nat) (msg : String)
    (q' : QueuedRequest) (backoff : Nat)
    (herr : (exec k).2 = Except.error msg)
    (hreq : handleRequestError opts q msg = .requeue q' backoff) :
    runTimed opts exec (q :: rest) now lrt k =
      ⟨dispatchStart opts now lrt, lrt, dispatchStart opts now lrt + (exec k).1, false⟩ ::
        runTimed opts exec (q' :: rest)
          (dispatchStart opts now lrt + (exec k).1 + backoff) lrt (k + 1) := by
  rw [runTimed, herr]
  split
  · rename_i heq
    exact absurd heq (by simp)
  · rename_i m2 heq
    injection heq with hm
    subst hm
    split
    · rename_i q2 b2 heq2
      rw [hreq] at heq2
      injection heq2 with h1 h2
      rw [h1, h2]
    · rename_i m3 heq2
      rw [hreq] at heq2
      exact absurd heq2 (by simp)

theorem runTimed_rejected (opts : BatchingOptions)
    (exec : Nat → Nat × Except String TanaAPIResponse) (q : QueuedRequest)
    (rest : List QueuedRequest) (now lrt k : Nat) (msg m : String)
    (herr : (exec k).2 = Except.error msg)
    (hrej : handleRequestError opts q msg = .reject m) :
    runTimed opts exec (q :: rest) now lrt k =
      ⟨dispatchStart opts now lrt, lrt, dispatchStart opts now lrt + (exec k).1, false⟩ ::
        runTimed opts exec rest (dispatchStart opts now lrt + (exec k).1) lrt (k + 1) := by
  rw [runTimed, herr]
  split
  · rename_i heq
    exact absurd heq (by simp)
  · rename_i m2 heq
    injection heq with hm
    subst hm
    split
    · rename_i q2 b2 heq2
      rw [hrej] at heq2
      exact absurd heq2 (by simp)
    · rfl

theorem dispatchStart_ge (opts : BatchingOptions) {now lrt : Nat}
    (h : lrt ≤ now) :
    lrt + minInterval opts ≤ dispatchStart opts now lrt := by
  unfold dispatchStart
  split <;> omega

theorem dispatchStart_ge_now (opts : BatchingOptions) (now lrt : Nat) :
    now ≤ dispatchStart opts now lrt := by
  unfold dispatchStart
  omega

/-- Claim C3 amended: every dispatch attempt starts at least
`minInterval = 1000 / rateLimit` ms after the pacing-clock value it
observed, the first attempt observes the initial clock, and each later
attempt observes the previous attempt's finish time when that attempt
succeeded and the unchanged clock when it failed — the source updates
`lastRequestTime` only on success, so successful dispatches are paced at
the configured rate but failed attempts consume no pacing slot (the
sliding-window bound over all attempts is refuted by the
counterexample). -/
theorem runTimed_paced (opts : BatchingOptions)
    (exec : Nat → Nat × Except String TanaAPIResponse)
    (queue : List QueuedRequest) (now lrt k : Nat) (hlrt : lrt ≤ now) :
    (∀ e ∈ runTimed opts exec queue now lrt k,
      e.clockAtStart + minInterval opts ≤ e.start) ∧
    (∀ e, (runTimed opts exec queue now lrt k).head? = some e →
      e.clockAtStart = lrt) ∧
    List.Chain'
      (fun a b => b.clockAtStart = if a.success then a.finish else a.clockAtStart)
      (runTimed opts exec queue now lrt k) := by
  induction queue, now, lrt, k using runTimed.induct opts exec with
  | case1 now lrt k =>
    rw [runTimed_nil]
    exact ⟨by simp, by simp, by simp⟩
  | case2 q rest now lrt k r hok ih =>
    rw [runTimed_ok opts exec q rest now lrt k r hok]
    have hnow : dispatchStart opts now lrt + (exec k).1 ≤
        dispatchStart opts now lrt + (exec k).1 := le_refl _
    obtain ⟨ih1, ih2, ih3⟩ := ih hnow
    refine ⟨?_, ?_, ?_⟩
    · intro e he
      rcases List.mem_cons.mp he with rfl | he'
      · exact dispatchStart_ge opts hlrt
      · exact ih1 e he'
    · intro e he
      injection he with he'
      rw [← he']
    · rw [List.chain'_cons']
      refine ⟨?_, ih3⟩
      intro b hb
      have := ih2 b hb
      simpa using this
  | case3 q rest now lrt k msg herr q' backoff hreq ih =>
    rw [runTimed_requeue opts exec q rest now lrt k msg q' backoff herr hreq]
    have hnow : lrt ≤ dispatchStart opts now lrt + (exec k).1 + backoff := by
      have h1 := dispatchStart_ge_now opts now lrt
      omega
    obtain ⟨ih1, ih2, ih3⟩ := ih hnow
    refine ⟨?_, ?_, ?_⟩
    · intro e he
      rcases List.mem_cons.mp he with rfl | he'
      · exact dispatchStart_ge opts hlrt
      · exact ih1 e he'
    · intro e he
      injection he with he'
      rw [← he']
    · rw [List.chain'_cons']
      refine ⟨?_, ih3⟩
      intro b hb
      have := ih2 b hb
      simpa using this
  | case4 q rest now lrt k msg herr m hrej ih =>
    rw [runTimed_rejected opts exec q rest now lrt k msg m herr hrej]
    have hnow : lrt ≤ dispatchStart opts now lrt + (exec k).1 := by
      have h1 := dispatchStart_ge_now opts now lrt
      omega
    obtain ⟨ih1, ih2, ih3⟩ := ih hnow
    refine ⟨?_, ?_, ?_⟩
    · intro e he
      rcases List.mem_cons.mp he with rfl | he'
      · exact dispatchStart_ge opts hlrt
      · exact ih1 e he'
    · intro e he
      injection he with he'
      rw [← he']
    · rw [List.chain'_cons']
      refine ⟨?_, ih3⟩
      intro b hb
      have := ih2 b hb
      simpa using this

/-! ## Claim C7: split/combine identity -/

/-- Claim C7: splitting an oversized create partitions its node list by
left-to-right chunking into consecutive chunks of size at most
`maxNodesPerRequest` (all but the last of size exactly the limit), the
chunks concatenate back to the original list, and combining per-chunk
responses whose children are the per-node results of the chunk yields
index-for-index the response a single hypothetical unsplit call (children
`ns.map f`) would have produced. -/
theorem split_combine_identity (k : Nat) (hk : 0 < k) (ns : List NodeSpec)
    (f : NodeSpec → TanaChild) :
    (∀ c ∈ chunkNodes ns k, c.length ≤ k) ∧
    (∀ c ∈ (chunkNodes ns k).dropLast, c.length = k) ∧
    (chunkNodes ns k).flatten = ns ∧
    combineResponses ((chunkNodes ns k).map fun c => ⟨some (c.map f)⟩) =
      ⟨some (ns.map f)⟩ := by
  refine ⟨chunkNodes_length_le ns, chunkNodes_dropLast ns,
    chunkNodes_flatten ns hk, ?_⟩
  rw [combineResponses_map, chunkNodes_flatten ns hk]

/-- Claim C7 witness: the spec's 250-nodes-with-limit-100 scenario. -/
theorem split_combine_identity_witness :
    (0 < 100) ∧
    ((∀ c ∈ chunkNodes nodes250 100, c.length ≤ 100) ∧
     (∀ c ∈ (chunkNodes nodes250 100).dropLast, c.length = 100) ∧
     (chunkNodes nodes250 100).flatten = nodes250 ∧
     combineResponses ((chunkNodes nodes250 100).map fun c =>
        ⟨some (c.map fun n => ⟨n.payload⟩)⟩) =
       ⟨some (nodes250.map fun n => ⟨n.payload⟩)⟩) :=
  ⟨by decide, split_combine_identity 100 (by decide) nodes250 (fun n => ⟨n.payload⟩)⟩

/-! ## Claim C9: denied admissions are side-effect-free -/

theorem enqueueMany_denied (opts : BatchingOptions) (size : TanaAPIRequest → Nat) :
    ∀ (rs : List TanaAPIRequest) (s : QueueState),
      allDenied opts size s rs = true → enqueueMany opts size s rs = s
  | [], _, _ => rfl
  | r' :: rs', s, hd => by
    simp only [allDenied, Bool.and_eq_true] at hd
    obtain ⟨h1, h2⟩ := hd
    obtain ⟨e, he⟩ := Option.isSome_iff_exists.mp h1
    have hstate := enqueueStep_denied he
    unfold enqueueMany
    simp only [List.foldl_cons]
    rw [hstate]
    rw [hstate] at h2
    exact enqueueMany_denied opts size rs' s h2

/-- Claim C9: a request denied at admission (workspace-limit or
payload-size check) leaves the whole queue state — pending list and
`totalNodeCount` — untouched, and a request that is denied when submitted
alone is still denied, with the same error, after any series of prior
denials. -/
theorem admission_denial_stable (opts : BatchingOptions)
    (size : TanaAPIRequest → Nat) (s : QueueState)
    (rs : List TanaAPIRequest) (r : TanaAPIRequest)
    (hd : allDenied opts size s rs = true) :
    enqueueMany opts size s rs = s ∧
    (∀ e, (enqueueStep opts size s r).2 = some e →
      (enqueueStep opts size s r).1 = s ∧
      (enqueueStep opts size (enqueueMany opts size s rs) r).2 = some e) := by
  have hmany := enqueueMany_denied opts size rs s hd
  refine ⟨hmany, ?_⟩
  intro e he
  rw [hmany]
  exact ⟨enqueueStep_denied he, he⟩

/-- Claim C9 witness: the spec's scenario 2 — ceiling 10, current count 8,
a five-node create is denied, stays denied after a prior denial of the
same request, and the state survives untouched. -/
theorem admission_denial_stable_witness :
    allDenied opts10 size0 ⟨[], 8⟩ [create5] = true ∧
    (enqueueMany opts10 size0 ⟨[], 8⟩ [create5] = ⟨[], 8⟩ ∧
     (∀ e, (enqueueStep opts10 size0 ⟨[], 8⟩ create5).2 = some e →
       (enqueueStep opts10 size0 ⟨[], 8⟩ create5).1 = ⟨[], 8⟩ ∧
       (enqueueStep opts10 size0 (enqueueMany opts10 size0 ⟨[], 8⟩ [create5]) create5).2 =
         some e)) :=
  ⟨by decide, admission_denial_stable opts10 size0 ⟨[], 8⟩ [create5] create5 (by decide)⟩

/-! ## Claim C10: the tracked count stays non-negative -/

/-- Claim C10: after any sequence of queue operations (admissions,
successful commits, terminal rejections, `setNodeCount` seeds and
`resetNodeCount`) starting from a non-negative tracked count, the tracked
count stays non-negative: `setNodeCount` clamps with `Math.max(0, count)`,
reset stores 0, and a commit only adds the (non-negative) number of
children the executor reported. -/
theorem totalNodeCount_nonneg (opts : BatchingOptions)
    (size : TanaAPIRequest → Nat) (s : QueueState) (ops : List QuotaOp)
    (h : 0 ≤ s.totalNodeCount) :
    0 ≤ (applyQuotaOps opts size s ops).totalNodeCount := by
  induction ops generalizing s with
  | nil => exact h
  | cons op ops ih =>
    unfold applyQuotaOps
    simp only [List.foldl_cons]
    exact ih _ (applyQuotaOp_nonneg opts size s op h)

/-- Claim C10 witness: a negative seed, a reset and another negative seed
starting from the fresh queue leave the count non-negative. -/
theorem totalNodeCount_nonneg_witness :
    (0 : Int) ≤ initialState.totalNodeCount ∧
    0 ≤ (applyQuotaOps defaultOptions size0 initialState
      [QuotaOp.seed (-5), QuotaOp.reset, QuotaOp.seed (-7)]).totalNodeCount :=
  ⟨by decide, totalNodeCount_nonneg defaultOptions size0 initialState
    [QuotaOp.seed (-5), QuotaOp.reset, QuotaOp.seed (-7)] (by decide)⟩

/-! ## Claim C1: the tracked count versus the ceiling -/

/-- Claim C1 counterexample: the claimed invariant
`totalNodeCount ≤ maxWorkspaceNodes` over all reachable states is false:
`setNodeCount` (the seed operation the claim itself includes) stores any
non-negative value unclamped, so one reachable step from the fresh queue
yields count 11 against ceiling 10. -/
theorem quota_ceiling_counterexample :
    (applyQuotaOps opts10 size0 initialState [QuotaOp.seed 11]).totalNodeCount = 11 ∧
    ¬ (applyQuotaOps opts10 size0 initialState [QuotaOp.seed 11]).totalNodeCount ≤
        (opts10.maxWorkspaceNodes : Int) := by
  exact ⟨by decide, by decide⟩

/-- Claim C1 amended: the ceiling does bound a single admitted
enqueue/commit cycle — if the count is within the ceiling and `enqueue`'s
admission check passes, then committing a response that reports at most
the estimated number of children keeps the count within the ceiling.  (The
unrestricted invariant fails: seeds are not clamped to the ceiling,
several admissions can be pending against the same count, and the tracker
trusts whatever child count the executor reports.) -/
theorem quota_admitted_cycle (opts : BatchingOptions)
    (size : TanaAPIRequest → Nat) (s : QueueState) (r : TanaAPIRequest)
    (resp : TanaAPIResponse)
    (hs : s.totalNodeCount ≤ (opts.maxWorkspaceNodes : Int))
    (hadm : (enqueueStep opts size s r).2 = none)
    (hresp : ((resp.children.getD []).length : Int) ≤ (estimatedNewNodes r : Int)) :
    updateNodeCount r resp s.totalNodeCount ≤ (opts.maxWorkspaceNodes : Int) := by
  unfold enqueueStep at hadm
  split at hadm
  · simp at hadm
  · split at hadm
    · simp at hadm
    · rename_i h1 h2
      push_neg at h1
      unfold updateNodeCount
      split
      · omega
      · exact hs

/-- Claim C1 witness: a one-node create admitted against ceiling 10 and
committed with one reported child keeps the count within the ceiling. -/
theorem quota_admitted_cycle_witness :
    (initialState.totalNodeCount ≤ (opts10.maxWorkspaceNodes : Int)) ∧
    ((enqueueStep opts10 size0 initialState
        (TanaAPIRequest.createNodes "t" [⟨"n"⟩])).2 = none) ∧
    ((((⟨some [⟨"c"⟩]⟩ : TanaAPIResponse).children.getD []).length : Int) ≤
      (estimatedNewNodes (TanaAPIRequest.createNodes "t" [⟨"n"⟩]) : Int)) ∧
    updateNodeCount (TanaAPIRequest.createNodes "t" [⟨"n"⟩]) ⟨some [⟨"c"⟩]⟩
        initialState.totalNodeCount ≤ (opts10.maxWorkspaceNodes : Int) :=
  ⟨by decide, by decide, by decide,
    quota_admitted_cycle opts10 size0 initialState _ _ (by decide) (by decide) (by decide)⟩

/-! ## Claim C4: no non-retryable classification exists -/

/-- Claim C4 counterexample: a permanent remote rejection ("400 Bad
Request: invalid payload") handed to `handleRequestError` with a fresh
retry budget is NOT rejected immediately: the entry is re-queued with its
retry counter incremented to 1 and a 1000 ms backoff, consuming retry
budget — the source classifies no error as non-retryable. -/
theorem nonretryable_counterexample :
    handleRequestError defaultOptions permEntry
        "400 Bad Request: Invalid payload structure" =
      ErrorAction.requeue { permEntry with retryCount := 1 } 1000 ∧
    ∀ m, handleRequestError defaultOptions permEntry
        "400 Bad Request: Invalid payload structure" ≠ ErrorAction.reject m := by
  refine ⟨by decide, ?_⟩
  intro m hm
  rw [show handleRequestError defaultOptions permEntry
      "400 Bad Request: Invalid payload structure" =
      ErrorAction.requeue { permEntry with retryCount := 1 } 1000 from by decide] at hm
  exact ErrorAction.noConfusion hm

/-- Claim C4 amended: dispatch failures are never classified — every
error, including a permanent remote rejection, is treated alike: while the
incremented retry counter stays within `maxRetries` the entry is re-queued
(at the front) after the exponential backoff
`baseBackoffMs * 2^retryCount`, consuming retry budget; rejection happens
only when the budget is exhausted. -/
theorem every_error_retried (opts : BatchingOptions) (q : QueuedRequest)
    (errMsg : String) (h : q.retryCount < opts.maxRetries) :
    handleRequestError opts q errMsg =
      ErrorAction.requeue { q with retryCount := q.retryCount + 1 }
        (opts.baseBackoffMs * 2 ^ q.retryCount) := by
  unfold handleRequestError backoffTime
  rw [if_pos (by omega)]
  simp

/-- Claim C4 (amended) witness: a permanently-rejected entry with a fresh
budget is re-queued with backoff `baseBackoffMs * 2^0`. -/
theorem every_error_retried_witness :
    permEntry.retryCount < defaultOptions.maxRetries ∧
    handleRequestError defaultOptions permEntry "500 Internal Server Error" =
      ErrorAction.requeue { permEntry with retryCount := permEntry.retryCount + 1 }
        (defaultOptions.baseBackoffMs * 2 ^ permEntry.retryCount) :=
  ⟨by decide, every_error_retried defaultOptions permEntry
    "500 Internal Server Error" (by decide)⟩

/-! ## Claim C8: the retry budget bounds dispatch attempts -/

/-- Claim C8: an entry accepted into the queue (`retryCount = 0`) is
dispatched at most `maxRetries + 1` times before its promise settles, and
against an always-failing transport it is rejected with a terminal
failure after exactly `maxRetries + 1` attempts. -/
theorem retry_bound (opts : BatchingOptions)
    (exec : Nat → Except String TanaAPIResponse) (q : QueuedRequest)
    (h0 : q.retryCount = 0) :
    (settleEntry opts exec q 0).1 ≤ opts.maxRetries + 1 ∧
    ((∀ m r, exec m ≠ Except.ok r) →
      (settleEntry opts exec q 0).1 = opts.maxRetries + 1 ∧
      ∃ m, (settleEntry opts exec q 0).2 = Outcome.failure m) := by
  constructor
  · have := settleEntry_attempts_le opts exec q 0 (by omega)
    omega
  · intro hfail
    obtain ⟨h1, h2⟩ := settleEntry_exhausts opts exec q 0 (by omega) hfail
    exact ⟨by omega, h2⟩

/-- Claim C8 witness: the spec's scenario 4 — `maxRetries = 1` and an
always-transiently-failing transport: the entry is rejected after exactly
2 attempts. -/
theorem retry_bound_witness :
    entry3.retryCount = 0 ∧
    ((settleEntry opts1 failExec entry3 0).1 ≤ opts1.maxRetries + 1 ∧
     ((∀ m r, failExec m ≠ Except.ok r) →
       (settleEntry opts1 failExec entry3 0).1 = opts1.maxRetries + 1 ∧
       ∃ m, (settleEntry opts1 failExec entry3 0).2 = Outcome.failure m)) :=
  ⟨rfl, retry_bound opts1 failExec entry3 rfl⟩

/-! ## Claim C6: every accepted entry settles exactly once -/

/-- Claim C6: the worker settles the pending entries one at a time — the
outcome trace carries exactly one settlement event (a success resolution
or a terminal rejection, the only two `Outcome` constructors) per accepted
entry, in queue order: the trace's ids equal the queue's ids, so no entry
is resolved twice, every entry is resolved, and an entry whose retries
exhaust does not prevent the entries behind it from being settled. -/
theorem resolved_exactly_once (opts : BatchingOptions)
    (exec : Nat → Nat → Except String TanaAPIResponse)
    (queue : List QueuedRequest) :
    (processAll opts exec queue).map Prod.fst = queue.map QueuedRequest.id := by
  induction queue with
  | nil => rfl
  | cons q rest ih => simp [processAll, ih]

/-! ## Claim C2: a failed sub-request rejects the whole split -/

/-- Claim C2 counterexample: with `maxNodesPerRequest = 1` a two-node
create splits into two sub-requests; the first resolves with one created
child, the second rejects.  The caller's single settled result is the bare
rejection `Except.error "Server error"` — a plain error that carries no
record of the succeeded sub-request and discards its created child — and
not a combined response reporting succeeded and failed indices. -/
theorem split_partial_failure_counterexample :
    chunkOutcome2 0 = Except.ok ⟨some [⟨"created0"⟩]⟩ ∧
    handleLargeCreateRequest splitOpts chunkOutcome2 [⟨"n0"⟩, ⟨"n1"⟩] =
      Except.error "Server error" := by
  refine ⟨rfl, ?_⟩
  unfold handleLargeCreateRequest
  rw [show chunkNodes [(⟨"n0"⟩ : NodeSpec), ⟨"n1"⟩] splitOpts.maxNodesPerRequest =
      [[⟨"n0"⟩], [⟨"n1"⟩]] from by simp [chunkNodes, splitOpts]]
  simp [runChunks, chunkOutcome2, Except.map]

/-- Claim C2 amended: when the `i`-th sub-request of a split create
rejects after all earlier sub-requests resolved, the caller's promise is
rejected with exactly that sub-request's error: the already-collected
sub-responses are discarded (their nodes remain created remotely but are
not reported), and no combined or partial-success response is surfaced. -/
theorem split_failure_plain_error (opts : BatchingOptions)
    (outcome : Nat → Except String TanaAPIResponse) (nodes : List NodeSpec)
    (i : Nat) (e : String)
    (hfail : outcome i = Except.error e)
    (hok : ∀ j, j < i → ∃ r, outcome j = Except.ok r)
    (hi : i < (chunkNodes nodes opts.maxNodesPerRequest).length) :
    handleLargeCreateRequest opts outcome nodes = Except.error e := by
  unfold handleLargeCreateRequest
  rw [runChunks_first_error outcome _ 0 i e (by simpa using hfail)
    (by simpa using hok) hi]
  rfl

/-- Claim C2 (amended) witness: the spec's scenario 6 shape — three
sub-requests, the second rejects — ends in the second sub-request's bare
error. -/
theorem split_failure_plain_error_witness :
    chunkOutcome3 1 = Except.error "Server error on chunk 1" ∧
    (∀ j, j < 1 → ∃ r, chunkOutcome3 j = Except.ok r) ∧
    1 < (chunkNodes [(⟨"n0"⟩ : NodeSpec), ⟨"n1"⟩, ⟨"n2"⟩] splitOpts.maxNodesPerRequest).length ∧
    handleLargeCreateRequest splitOpts chunkOutcome3 [⟨"n0"⟩, ⟨"n1"⟩, ⟨"n2"⟩] =
      Except.error "Server error on chunk 1" := by
  have hlen : chunkNodes [(⟨"n0"⟩ : NodeSpec), ⟨"n1"⟩, ⟨"n2"⟩] splitOpts.maxNodesPerRequest =
      [[⟨"n0"⟩], [⟨"n1"⟩], [⟨"n2"⟩]] := by
    simp [chunkNodes, splitOpts]
  have hok : ∀ j, j < 1 → ∃ r, chunkOutcome3 j = Except.ok r := by
    intro j hj
    interval_cases j
    exact ⟨⟨some [⟨"c"⟩]⟩, rfl⟩
  have hi : 1 < (chunkNodes [(⟨"n0"⟩ : NodeSpec), ⟨"n1"⟩, ⟨"n2"⟩] splitOpts.maxNodesPerRequest).length := by
    rw [hlen]
    decide
  exact ⟨rfl, hok, hi,
    split_failure_plain_error splitOpts chunkOutcome3 _ 1 _ rfl hok hi⟩

/-! ## Claim C5: ordering across a split -/

/-- Claim C5 counterexample: logical request 0 is an oversized create
split in two chunks; its first chunk is pending (and its coordinator holds
one more chunk) when request 1 is enqueued behind it.  The worker's
dispatch order is chunk 0 of request 0, then request 1, then chunk 1 of
request 0 — request 1 is handed to the executor before every dispatch of
the earlier request 0 has been issued, with no retry involved. -/
theorem no_overtake_counterexample :
    runWithSplits [(0, 1)] [EntryLabel.chunk 0 0, EntryLabel.whole 1] =
      [EntryLabel.chunk 0 0, EntryLabel.whole 1, EntryLabel.chunk 0 1] ∧
    ¬ allBefore (runWithSplits [(0, 1)] [EntryLabel.chunk 0 0, EntryLabel.whole 1]) 0 1 := by
  have htr : runWithSplits [(0, 1)] [EntryLabel.chunk 0 0, EntryLabel.whole 1] =
      [EntryLabel.chunk 0 0, EntryLabel.whole 1, EntryLabel.chunk 0 1] := by
    rw [runWithSplits_chunk_some [(0, 1)] 0 0 [EntryLabel.whole 1] [(0, 0)] rfl]
    simp only [List.cons_append, List.nil_append]
    rw [runWithSplits_whole]
    rw [runWithSplits_chunk_none [(0, 0)] 0 1 [] rfl]
    rw [runWithSplits_nil]
  refine ⟨htr, ?_⟩
  rw [htr]
  decide

/-- Claim C5 amended: entries already in the pending list are dispatched
in FIFO order, ahead of every sub-request chunk a split coordinator
enqueues later (the dispatch trace begins with the pending list itself),
and with no split in progress the dispatch order is exactly the pending
order; but because a split's chunks after the first are enqueued only as
the previous chunk resolves, a request enqueued after the split's first
chunk is dispatched before the split's later chunks (the claim as stated
fails), independently of the retry-to-front exception. -/
theorem split_chunks_fifo (coords : List (Nat × Nat))
    (queue : List EntryLabel) :
    (∃ t, runWithSplits coords queue = queue ++ t) ∧
    runWithSplits [] queue = queue :=
  ⟨runWithSplits_extends coords queue, runWithSplits_no_coords queue⟩

/-! ## Claim C3: rate pacing -/

/-- Claim C3 counterexample: with rate limit 1/s and a 1 ms base backoff,
one entry whose first three dispatch attempts fail transiently (and whose
fourth succeeds) produces dispatch attempts at t = 1000, 1001, 1003 and
1007 ms: four attempts inside the sliding window [1000, 2000) of duration
W = 1 s, exceeding rate·W = 1 even with one permit of slack — failed
attempts do not update `lastRequestTime`, so retries do not consume pacing
slots. -/
theorem rate_ceiling_counterexample :
    (runTimed opts3 exec3 [entry3] 0 0 0).map DispatchEvent.start =
      [1000, 1001, 1003, 1007] ∧
    (((runTimed opts3 exec3 [entry3] 0 0 0).map DispatchEvent.start).filter
      (fun t => 1000 ≤ t && t < 2000)).length = 4 ∧
    opts3.rateLimit * 1 + 1 < 4 := by
  have h0 : runTimed opts3 exec3 [entry3] 0 0 0 =
      [⟨1000, 0, 1000, false⟩, ⟨1001, 0, 1001, false⟩,
       ⟨1003, 0, 1003, false⟩, ⟨1007, 0, 1007, true⟩] := by
    rw [runTimed_requeue opts3 exec3 entry3 [] 0 0 0 "network timeout"
      ⟨1, TanaAPIRequest.setNodeName "node" "name", 0, 1⟩ 1 rfl (by decide)]
    rw [runTimed_requeue opts3 exec3
      ⟨1, TanaAPIRequest.setNodeName "node" "name", 0, 1⟩ [] _ _ 1 "network timeout"
      ⟨1, TanaAPIRequest.setNodeName "node" "name", 0, 2⟩ 2 rfl (by decide)]
    rw [runTimed_requeue opts3 exec3
      ⟨1, TanaAPIRequest.setNodeName "node" "name", 0, 2⟩ [] _ _ 2 "network timeout"
      ⟨1, TanaAPIRequest.setNodeName "node" "name", 0, 3⟩ 4 rfl (by decide)]
    rw [runTimed_ok opts3 exec3
      ⟨1, TanaAPIRequest.setNodeName "node" "name", 0, 3⟩ [] _ _ 3 ⟨some []⟩ rfl]
    rw [runTimed_nil]
    decide
  rw [h0]
  exact ⟨rfl, rfl, by decide⟩

/-- Claim C3 (amended) witness instance for `runTimed_paced` at a concrete
queue, initial clock and always-succeeding executor. -/
theorem runTimed_paced_witness :
    (0 : Nat) ≤ 0 ∧
    ((∀ e ∈ runTimed defaultOptions execOk [entry3] 0 0 0,
        e.clockAtStart + minInterval defaultOptions ≤ e.start) ∧
     (∀ e, (runTimed defaultOptions execOk [entry3] 0 0 0).head? = some e →
        e.clockAtStart = 0) ∧
     List.Chain'
       (fun a b => b.clockAtStart = if a.success then a.finish else a.clockAtStart)
       (runTimed defaultOptions execOk [entry3] 0 0 0)) :=
  ⟨le_refl 0, runTimed_paced defaultOptions execOk [entry3] 0 0 0 (le_refl 0)⟩

end TanaMCP
